import Mathlib

/-!
Shallow embedding of the nacli repository (src/nacli/git.py and
src/nacli/statetree.py) and verification of its specification claims.

Python values decoded from the manifest are modelled by the inductive
type `Yaml`; Python exceptions by `Exc` (one constructor per exception
class defined or raised by the code); side effects (subprocess /
repository access, stdout printing) by explicit `Eff` traces.
-/

namespace Nacli

/-- Decoded YAML / Python values as produced by `yaml.safe_load`:
strings, integers, booleans, `None`, lists and string-keyed mappings.
Python dictionaries keep insertion order, which the entry list models;
a real `dict` never holds two entries with the same key. -/
inductive Yaml where
  | ystr (s : String)
  | yint (n : Int)
  | ybool (b : Bool)
  | ynull
  | ylist (xs : List Yaml)
  | ymap (es : List (String × Yaml))

/-- Python `type(x).__name__` for the modelled values. -/
def Yaml.pyTypeName : Yaml → String
  | .ystr _ => "str"
  | .yint _ => "int"
  | .ybool _ => "bool"
  | .ynull => "NoneType"
  | .ylist _ => "list"
  | .ymap _ => "dict"

/-- Exception classes appearing in the program: `GitError` and
`StateParseError` are the two classes defined by the code (git.py line
12, statetree.py line 50); `AttributeError` and `TypeError` are the
built-in Python exceptions its dynamic operations can raise. -/
inductive Exc where
  | gitError (msg : String)
  | stateParseError (msg : String)
  | attributeError (msg : String)
  | typeError (msg : String)

/-- Python class name of a raised exception. -/
def Exc.className : Exc → String
  | .gitError _ => "GitError"
  | .stateParseError _ => "StateParseError"
  | .attributeError _ => "AttributeError"
  | .typeError _ => "TypeError"

/-- Python `output.replace('\n', '; ')`: each newline character becomes
a semicolon and a space. -/
def pyReplaceNl (s : String) : String :=
  String.mk ((s.data.map (fun c => if c = '\n' then [';', ' '] else [c])).flatten)

/-- Python `.strip('; ')`: strips any run of the characters `;` and
space from both ends of the string. -/
def pyStripSemiSpace (s : String) : String :=
  let isStripped : Char → Bool := fun c => c = ';' || c = ' '
  String.mk (((s.data.dropWhile isStripped).reverse.dropWhile isStripped).reverse)

/-- Python `str.strip()` with no argument: strips ASCII whitespace from
both ends. -/
def pyStrip (s : String) : String :=
  let isWs : Char → Bool := fun c =>
    c = ' ' || c = '\t' || c = '\n' || c = '\r' || c = '\x0b' || c = '\x0c'
  String.mk (((s.data.dropWhile isWs).reverse.dropWhile isWs).reverse)

/-- `Repo.git` (git.py lines 45-79): runs a git subcommand.  The
subprocess outcome is the input: `.ok out` when the command exited 0
with output `out`, `.error (code, output)` when it exited non-zero.  A
non-zero exit becomes a `GitError` whose message holds the joined
command, the exit code and the output with newlines replaced by `; `
and then stripped of `; ` at both ends. -/
def gitRun (outcome : Except (Int × String) String) (cmds : List String) : Except Exc String :=
  match outcome with
  | .ok out => .ok out
  | .error (code, output) =>
      .error (.gitError ("command \"" ++ String.intercalate " " ("git" :: cmds)
        ++ "\" failed with exit code \"" ++ toString code ++ "\" and output: \""
        ++ pyStripSemiSpace (pyReplaceNl output) ++ "\""))

/-- `Repo.validate_branch` (git.py lines 94-103): takes the result of
`self.git('branch', '--list', '--all', 'origin/<branch>')`.  A raised
`GitError` propagates; an empty listing (falsy string) raises a
`GitError` naming the branch and URL. -/
def validate_branch (cmdResult : Except Exc String) (branch url : String) : Except Exc Unit :=
  match cmdResult with
  | .error e => .error e
  | .ok out =>
      if out = "" then
        .error (.gitError ("Branch " ++ branch ++ " not found for repository " ++ url))
      else
        .ok ()

/-- `Repo.validate_tag` (git.py lines 105-114): takes the result of
`self.git('tag', '--list', tag)`. -/
def validate_tag (cmdResult : Except Exc String) (tag url : String) : Except Exc Unit :=
  match cmdResult with
  | .error e => .error e
  | .ok out =>
      if out = "" then
        .error (.gitError ("Tag " ++ tag ++ " not found for repository " ++ url))
      else
        .ok ()

/-- `Repo.validate_commit` (git.py lines 116-127): takes the result of
`self.git('cat-file', '-t', commit)`.  When the object does not exist
the command itself exits non-zero, so `cmdResult` is already an error
and propagates; when the command succeeds but prints something other
than `commit` (after stripping), a `GitError` naming the commit and URL
is raised. -/
def validate_commit (cmdResult : Except Exc String) (commit url : String) : Except Exc Unit :=
  match cmdResult with
  | .error e => .error e
  | .ok out =>
      if pyStrip out ≠ "commit" then
        .error (.gitError ("Commit " ++ commit ++ " not found for repository " ++ url))
      else
        .ok ()

/-- The three git reference kinds.  In statetree.py these are the
subclasses `GitBranch`, `GitCommit`, `GitTag` of `GitRef`, which fix
the `reftype` string to `branch`, `commit` or `tag`. -/
inductive RefType where
  | branch
  | commit
  | tag
deriving DecidableEq

/-- The `reftype` string stored by the corresponding `GitRef` subclass. -/
def RefType.str : RefType → String
  | .branch => "branch"
  | .commit => "commit"
  | .tag => "tag"

/-- Python `str.capitalize`: first character upper-cased, the rest
lower-cased. -/
def pyCapitalize (s : String) : String :=
  match s.data with
  | [] => ""
  | c :: cs => String.mk (c.toUpper :: cs.map Char.toLower)

/-- `GitRef` (statetree.py lines 8-26): a reference kind plus a name.
The name is whatever decoded value the manifest supplied — the
validator performs no type check on it, so it is a `Yaml` value. -/
structure GitRef where
  reftype : RefType
  name : Yaml

/-- Python `repr(x)` for scalars, used for elements inside container
renderings; Python additionally escapes quotes and backslashes inside
`repr` of a string, which this rendering omits (no claim exercises
container or quoting cases). -/
def Yaml.pyScalarRepr : Yaml → String
  | .ystr s => "\x27" ++ s ++ "\x27"
  | .yint n => toString n
  | .ybool true => "True"
  | .ybool false => "False"
  | .ynull => "None"
  | .ylist _ => "[...]"
  | .ymap _ => "\x7b...\x7d"

/-- Python `str(x)` for the modelled values, as used by `"{}".format`.
For strings it is the string itself — the only case any claim
evaluates.  Containers are rendered one level deep with scalar
`repr`s of their elements. -/
def Yaml.pyStr : Yaml → String
  | .ystr s => s
  | .yint n => toString n
  | .ybool true => "True"
  | .ybool false => "False"
  | .ynull => "None"
  | .ylist xs => "[" ++ String.intercalate ", " (xs.map Yaml.pyScalarRepr) ++ "]"
  | .ymap es => "\x7b" ++ String.intercalate ", "
      (es.map (fun p => "\x27" ++ p.1 ++ "\x27: " ++ Yaml.pyScalarRepr p.2)) ++ "\x7d"

/-- `GitRef.__str__` (statetree.py line 16):
`"{}: {}".format(self._reftype.capitalize(), self.name)`. -/
def GitRef.str (r : GitRef) : String :=
  pyCapitalize r.reftype.str ++ ": " ++ r.name.pyStr

/-- `State` (statetree.py lines 54-110): a named state with a source
URL and an optional git reference.  The name comes from a mapping key
(a string); the URL is the unchecked decoded value. -/
structure State where
  name : String
  url : Yaml
  ref : Option GitRef

/-- `State.__repr__` (statetree.py lines 62-66): `"{} ({})"` of name and
URL, extended with `" [{}]"` of the reference when one is present.
`State.__lt__` compares these strings, and `str(state)` falls back to
`__repr__`, so this is the exporter's canonical rendering. -/
def State.reprStr (s : State) : String :=
  let base := s.name ++ " (" ++ s.url.pyStr ++ ")"
  match s.ref with
  | none => base
  | some r => base ++ " [" ++ r.str ++ "]"

/-- Python string `<`: lexicographic comparison by code point. -/
def charsLtB : List Char → List Char → Bool
  | [], [] => false
  | [], _ :: _ => true
  | _ :: _, [] => false
  | a :: as, b :: bs => if a = b then charsLtB as bs else decide (a < b)

/-- Python `a < b` on strings. -/
def pyStrLt (a b : String) : Bool := charsLtB a.data b.data

/-- Python `a <= b` on strings (for a total order, `not (b < a)`). -/
def pyStrLe (a b : String) : Bool := !(pyStrLt b a)

theorem charsLtB_irrefl (x : List Char) : charsLtB x x = false := by
  induction x with
  | nil => rfl
  | cons a as ih => simp [charsLtB, ih]

theorem charsLtB_asymm (x y : List Char) (h : charsLtB x y = true) :
    charsLtB y x = false := by
  induction x generalizing y with
  | nil =>
    cases y with
    | nil => simp [charsLtB] at h
    | cons b bs => simp [charsLtB]
  | cons a as ih =>
    cases y with
    | nil => simp [charsLtB] at h
    | cons b bs =>
      by_cases hab : a = b
      · subst hab
        simp only [charsLtB, if_pos rfl] at h ⊢
        exact ih bs h
      · simp only [charsLtB, if_neg hab, decide_eq_true_eq] at h
        simp only [charsLtB, if_neg (Ne.symm hab), decide_eq_false_iff_not]
        exact lt_asymm h

theorem charsLtB_trans (x y z : List Char) (hxy : charsLtB x y = true)
    (hyz : charsLtB y z = true) : charsLtB x z = true := by
  induction x generalizing y z with
  | nil =>
    cases z with
    | nil =>
      cases y with
      | nil => simp [charsLtB] at hxy
      | cons b bs => simp [charsLtB] at hyz
    | cons c cs => simp [charsLtB]
  | cons a as ih =>
    cases y with
    | nil => simp [charsLtB] at hxy
    | cons b bs =>
      cases z with
      | nil => simp [charsLtB] at hyz
      | cons c cs =>
        by_cases hab : a = b <;> by_cases hbc : b = c
        · subst hab; subst hbc
          simp only [charsLtB, if_pos rfl] at hxy hyz ⊢
          exact ih bs cs hxy hyz
        · subst hab
          simp only [charsLtB, if_neg hbc, decide_eq_true_eq] at hyz
          simp [charsLtB, hbc, hyz]
        · subst hbc
          simp only [charsLtB, if_neg hab, decide_eq_true_eq] at hxy
          simp [charsLtB, hab, hxy]
        · simp only [charsLtB, if_neg hab, decide_eq_true_eq] at hxy
          simp only [charsLtB, if_neg hbc, decide_eq_true_eq] at hyz
          have hac : a < c := lt_trans hxy hyz
          simp [charsLtB, ne_of_lt hac, hac]

theorem charsLtB_connex (x y : List Char) (h : x ≠ y) :
    charsLtB x y = true ∨ charsLtB y x = true := by
  induction x generalizing y with
  | nil =>
    cases y with
    | nil => exact absurd rfl h
    | cons b bs => left; simp [charsLtB]
  | cons a as ih =>
    cases y with
    | nil => right; simp [charsLtB]
    | cons b bs =>
      by_cases hab : a = b
      · subst hab
        have hne : as ≠ bs := fun hEq => h (by rw [hEq])
        rcases ih bs hne with h1 | h1
        · left; simpa [charsLtB] using h1
        · right; simpa [charsLtB] using h1
      · rcases lt_or_gt_of_ne hab with h1 | h1
        · left; simp [charsLtB, hab, h1]
        · right; simp [charsLtB, Ne.symm hab, h1]

theorem pyStrLe_total (a b : String) : pyStrLe a b = true ∨ pyStrLe b a = true := by
  cases h : charsLtB b.data a.data with
  | false => left; simp [pyStrLe, pyStrLt, h]
  | true => right; simp [pyStrLe, pyStrLt, charsLtB_asymm _ _ h]

theorem pyStrLe_trans (a b c : String) (h1 : pyStrLe a b = true)
    (h2 : pyStrLe b c = true) : pyStrLe a c = true := by
  simp only [pyStrLe, pyStrLt, Bool.not_eq_true', Bool.not_eq_true,
    ← Bool.not_eq_true] at h1 h2 ⊢
  intro hca
  by_cases hcb : c.data = b.data
  · exact h1 (hcb ▸ hca)
  · rcases charsLtB_connex c.data b.data hcb with h3 | h3
    · exact h2 h3
    · exact h1 (charsLtB_trans _ _ _ h3 hca)

theorem pyStrLe_antisymm (a b : String) (h1 : pyStrLe a b = true)
    (h2 : pyStrLe b a = true) : a = b := by
  simp only [pyStrLe, pyStrLt, Bool.not_eq_true'] at h1 h2
  by_cases h : a.data = b.data
  · cases a; cases b; exact congrArg String.mk h
  · rcases charsLtB_connex a.data b.data h with h3 | h3
    · exact absurd h3 (by simp [h2])
    · exact absurd h3 (by simp [h1])

theorem pyStrLt_of_le_of_ne (a b : String) (h1 : pyStrLe a b = true)
    (h2 : a ≠ b) : pyStrLt a b = true := by
  have hne : a.data ≠ b.data := fun hEq => h2 (by cases a; cases b; exact congrArg String.mk hEq)
  rcases charsLtB_connex a.data b.data hne with h3 | h3
  · exact h3
  · simp only [pyStrLe, pyStrLt, Bool.not_eq_true'] at h1
    exact absurd h3 (by simp [h1])

theorem pyStrLt_asymm (a b : String) (h : pyStrLt a b = true) :
    pyStrLt b a = false :=
  charsLtB_asymm _ _ h

theorem pyStrLe_of_lt (a b : String) (h : pyStrLt a b = true) : pyStrLe a b = true := by
  simp [pyStrLe, pyStrLt_asymm _ _ h]

/-- `State.__lt__` (statetree.py lines 71-72): `str(other) > str(self)`,
i.e. comparison of the canonical renderings by Python string order.
Python's `sorted` is a stable sort driven by `__lt__`; a stable sort
whose strict order is `reprStr a < reprStr b` is `List.insertionSort`
with this non-strict relation. -/
def stateLe (a b : State) : Prop := pyStrLe a.reprStr b.reprStr = true

instance : DecidableRel stateLe := fun _ _ =>
  inferInstanceAs (Decidable (_ = true))

instance : IsTotal State stateLe := ⟨fun a b => pyStrLe_total a.reprStr b.reprStr⟩

instance : IsTrans State stateLe := ⟨fun _ _ _ h h2 => pyStrLe_trans _ _ _ h h2⟩

/-- One value of the exported mapping: either a bare URL or the nested
mapping built by `State.as_dict`. -/
inductive YVal where
  | scalar (v : Yaml)
  | map (es : List (String × Yaml))

/-- The pure value part of `State.as_dict` (statetree.py lines 102-110):
`{'url': url, reftype: refname}` when a reference is present (in that
insertion order), else the bare URL (the `AttributeError` fallback for
`self.ref` being `None`). -/
def State.val (s : State) : YVal :=
  match s.ref with
  | none => .scalar s.url
  | some r => .map [("url", s.url), (r.reftype.str, r.name)]

/-- First-found association lookup, the observable behaviour of `d[k]`
on a Python dict modelled as its insertion-ordered entry list. -/
def lookupA {α : Type} : List (String × α) → String → Option α
  | [], _ => none
  | (k, v) :: rest, key => if k = key then some v else lookupA rest key

/-- Repository access / side effects performed by statetree.py:
opening and closing a working copy (`Repo(url=...)` clones, the context
manager exit removes it), running one of the `validate_*` lookups
against it, and `print`. -/
inductive Eff where
  | openRepo (url : Yaml)
  | closeRepo (url : Yaml)
  | validate (kind : RefType) (name : Yaml)
  | print (v : Yaml)

/-- Whether an effect is a reference validation. -/
def Eff.isValidate : Eff → Bool
  | .validate _ _ => true
  | _ => false

/-- `State.as_dict` (statetree.py lines 89-110).  With `verify_refs`
set, it first opens a working copy of the state's own URL
(`with Repo(url=self.url)` — a clone, performed before anything else),
then dispatches `validators[self.ref.reftype](self.ref.name)`; when
`self.ref` is `None` that raises `AttributeError`, which is caught and
ignored.  A `GitError` from the validator propagates (after the context
manager cleans up).  The returned mapping is `State.val` keyed by the
state name.  `openResult`/`validateResult` are the outcomes of the
clone and of the validation git commands. -/
def State.as_dict (openResult : Yaml → Except Exc Unit)
    (validateResult : RefType → Yaml → Except Exc Unit)
    (verify_refs : Bool) (s : State) : List Eff × Except Exc (String × YVal) :=
  if verify_refs then
    match openResult s.url with
    | .error e => ([.openRepo s.url], .error e)
    | .ok _ =>
        match s.ref with
        | none => ([.openRepo s.url, .closeRepo s.url], .ok (s.name, s.val))
        | some r =>
            match validateResult r.reftype r.name with
            | .ok _ =>
                ([.openRepo s.url, .validate r.reftype r.name, .closeRepo s.url],
                  .ok (s.name, s.val))
            | .error e =>
                ([.openRepo s.url, .validate r.reftype r.name, .closeRepo s.url],
                  .error e)
  else ([], .ok (s.name, s.val))

/-- Python `repr` of a set of strings, in insertion order of the
underlying keys (CPython iterates sets in hash order; the claims never
inspect a multi-element set message). -/
def pySetRepr (ks : List String) : String :=
  "\x7b" ++ String.intercalate ", " (ks.map (fun k => "\x27" ++ k ++ "\x27")) ++ "\x7d"

/-- The options part of `StateTreeRepo._verify_state` (statetree.py
lines 131-162), applied to the single value `state_options` found under
the key `state_name`: type check, unknown-option check, mandatory
`url` (`pop`), at-most-one-of branch/commit/tag, then reference
construction.  `os.filter (·.1 ≠ "url")` is the dict after `pop('url')`. -/
def verifyOptions (state_name : String) (state_options : Yaml) : Except Exc State :=
  match state_options with
  | .ystr url => .ok ⟨state_name, .ystr url, none⟩
  | .ymap os =>
      let invalid_keys := (os.map Prod.fst).filter
        (fun k => !(["branch", "commit", "tag", "url"].contains k))
      if invalid_keys ≠ [] then
        .error (.stateParseError ("State " ++ state_name ++ " invalid options: "
          ++ pySetRepr invalid_keys))
      else
        match lookupA os "url" with
        | none => .error (.stateParseError ("State " ++ state_name
            ++ " missing mandatory option \"url\""))
        | some url =>
            let rest := os.filter (fun p => p.1 ≠ "url")
            if rest.length > 1 then
              .error (.stateParseError ("State " ++ state_name
                ++ " more than one of \"commit\", \"tag\" or \"branch\" specified: \""
                ++ String.intercalate "\", \"" (rest.map Prod.fst) ++ "\""))
            else if (rest.map Prod.fst).contains "branch" then
              .ok ⟨state_name, url, some ⟨.branch, (lookupA rest "branch").getD .ynull⟩⟩
            else if (rest.map Prod.fst).contains "commit" then
              .ok ⟨state_name, url, some ⟨.commit, (lookupA rest "commit").getD .ynull⟩⟩
            else if (rest.map Prod.fst).contains "tag" then
              .ok ⟨state_name, url, some ⟨.tag, (lookupA rest "tag").getD .ynull⟩⟩
            else
              .ok ⟨state_name, url, none⟩
  | other => .error (.stateParseError ("State " ++ state_name
      ++ " options should be passed as str or dict, not " ++ other.pyTypeName))

/-- `StateTreeRepo._verify_state` (statetree.py lines 121-162).  The
result is `(effects, outcome, entry-after-the-call)`: the function
first executes `print(state)` (line 125), then `len(state) != 1`; for a
mapping entry of any other length it raises `StateParseError` joining
the keys; a single-entry mapping is consumed by `popitem()` (the entry
mapping is left empty) and its item checked by `verifyOptions`.  A
non-mapping entry fails dynamically instead: `len` rejects numbers,
booleans and `None` with `TypeError`, and `.keys()`/`.popitem()` reject
strings and lists with `AttributeError`. -/
def verify_state (state : Yaml) : List Eff × Except Exc State × Yaml :=
  ([Eff.print state],
    match state with
    | .ymap [(state_name, state_options)] =>
        (verifyOptions state_name state_options, .ymap [])
    | .ymap es =>
        (.error (.stateParseError
          ("State should have options grouped under a single key, not "
            ++ String.intercalate "," (es.map Prod.fst))), state)
    | .ystr s =>
        (.error (.attributeError (if s.length = 1
          then "\x27str\x27 object has no attribute \x27popitem\x27"
          else "\x27str\x27 object has no attribute \x27keys\x27")), state)
    | .ylist xs =>
        (.error (.attributeError (if xs.length = 1
          then "\x27list\x27 object has no attribute \x27popitem\x27"
          else "\x27list\x27 object has no attribute \x27keys\x27")), state)
    | other =>
        (.error (.typeError ("object of type \x27" ++ other.pyTypeName
          ++ "\x27 has no len()")), state))

/-- `_yaml.update(state.as_dict())` on the insertion-ordered dict model:
an existing key keeps its position and gets the new value, a new key is
appended. -/
def dictInsert (d : List (String × YVal)) (k : String) (v : YVal) : List (String × YVal) :=
  if (d.map Prod.fst).contains k then
    d.map (fun p => if p.1 = k then (p.1, v) else p)
  else d ++ [(k, v)]

/-- The dict built by `StateTreeRepo.yaml` (statetree.py lines 187-189):
states sorted by `__lt__` (stably, i.e. insertion sort on the canonical
renderings), then merged left to right, later entries overwriting
earlier ones with the same name. -/
def mergeStates (l : List State) : List (String × YVal) :=
  (List.insertionSort stateLe l).foldl (fun d s => dictInsert d s.name s.val) []

/-- Key order used by the serializer on entry pairs. -/
def keyLe {α : Type} (p q : String × α) : Prop := pyStrLe p.1 q.1 = true

/-- Strict key order on entry pairs. -/
def keyLt {α : Type} (p q : String × α) : Prop := pyStrLt p.1 q.1 = true

instance {α : Type} : DecidableRel (keyLe (α := α)) := fun _ _ =>
  inferInstanceAs (Decidable (_ = true))

instance {α : Type} : IsTotal (String × α) keyLe :=
  ⟨fun p q => pyStrLe_total p.1 q.1⟩

instance {α : Type} : IsTrans (String × α) keyLe :=
  ⟨fun _ _ _ h h2 => pyStrLe_trans _ _ _ h h2⟩

instance {α : Type} : IsAntisymm (String × α) keyLt :=
  ⟨fun p q h h2 => absurd h2 (by simp [keyLt, pyStrLt_asymm _ _ h])⟩

/-- Sorting a mapping's entries by key, as PyYAML's serializer does. -/
def sortByKey {α : Type} (d : List (String × α)) : List (String × α) :=
  List.insertionSort keyLe d

/-- Modelled from PyYAML semantics: `yaml.safe_dump` serializes a
nested mapping value with its keys sorted (the dumper's `sort_keys`
default is true). -/
def dumpVal : YVal → YVal
  | .scalar v => .scalar v
  | .map es => .map (sortByKey es)

/-- Modelled from PyYAML semantics: `yaml.safe_dump(_yaml,
default_flow_style=False)` (statetree.py line 191) emits mapping keys
in sorted order at every level (its `sort_keys` default is true).  The
exported document is modelled as the ordered key/value structure the
serializer emits; its rendering to text is injective and
order-preserving, so the structure captures the document. -/
def yamlSafeDump (d : List (String × YVal)) : List (String × YVal) :=
  (sortByKey d).map (fun p => (p.1, dumpVal p.2))

/-- The document `StateTreeRepo.yaml` produces for one environment's
state list when every repository access succeeds (the pure value part
of lines 185-191). -/
def exportEnvDoc (states : List State) : List (String × YVal) :=
  yamlSafeDump (mergeStates states)

/-- The merge loop of `StateTreeRepo.yaml` with its effects: each state
contributes `state.as_dict()` (with the default `verify_refs=True`, so
repository accesses happen here), and a raised error aborts the loop. -/
def mergeRun (openResult : Yaml → Except Exc Unit)
    (validateResult : RefType → Yaml → Except Exc Unit) :
    List State → List (String × YVal) → List Eff × Except Exc (List (String × YVal))
  | [], acc => ([], .ok acc)
  | s :: rest, acc =>
      let r := State.as_dict openResult validateResult true s
      match r.2 with
      | .error e => (r.1, .error e)
      | .ok kv =>
          let next := mergeRun openResult validateResult rest (dictInsert acc kv.1 kv.2)
          (r.1 ++ next.1, next.2)

/-- `StateTreeRepo.yaml` for one environment's state list
(statetree.py lines 185-191), effects included: sort the states, merge
their `as_dict()` results (verifying references on the way), then
serialize. -/
def exportEnvRun (openResult : Yaml → Except Exc Unit)
    (validateResult : RefType → Yaml → Except Exc Unit)
    (states : List State) : List Eff × Except Exc (List (String × YVal)) :=
  let m := mergeRun openResult validateResult (List.insertionSort stateLe states) []
  (m.1, m.2.map yamlSafeDump)

/-- `StateTreeRepo.yaml(environment)` itself: `self._environments` is a
`defaultdict(list)` (line 117), so looking up an unknown environment
name yields the empty state list (and silently inserts the key). -/
def yamlRun (openResult : Yaml → Except Exc Unit)
    (validateResult : RefType → Yaml → Except Exc Unit)
    (environments : List (String × List State)) (environment : String) :
    List Eff × Except Exc (List (String × YVal)) :=
  exportEnvRun openResult validateResult ((lookupA environments environment).getD [])

/-- `self._environments[branch].append(state)` on the defaultdict:
the key is created on first append. -/
def envAppend (envs : List (String × List State)) (b : String) (s : State) :
    List (String × List State) :=
  if (envs.map Prod.fst).contains b then
    envs.map (fun p => if p.1 = b then (p.1, p.2 ++ [s]) else p)
  else envs ++ [(b, [s])]

/-- What `_scan` finds on one branch: no `states.yaml`
(`FileNotFoundError` on `open`), a file `yaml.safe_load` rejects
(`yaml.YAMLError` with the given message), or a decoded document. -/
inductive ManifestFile where
  | missing
  | undecodable (msg : String)
  | decoded (doc : Yaml)

/-- Python iteration over a decoded document (`for state in ...`):
lists yield elements, dicts yield their keys, strings their characters;
other values raise `TypeError`. -/
def pyIter : Yaml → Except Exc (List Yaml)
  | .ylist xs => .ok xs
  | .ymap es => .ok (es.map (fun p => .ystr p.1))
  | .ystr s => .ok (s.data.map (fun c => .ystr (String.mk [c])))
  | y => .error (.typeError ("\x27" ++ y.pyTypeName ++ "\x27 object is not iterable"))

/-- The entry loop of `_scan` on one branch: each decoded entry goes
through `_verify_state` and is appended to the branch's environment; a
`StateParseError` (or dynamic error) from the validator propagates
uncaught and aborts the scan. -/
def verifyEntries (branch : String) (entries : List Yaml)
    (envs : List (String × List State)) : Except Exc (List (String × List State))  :=
  match entries with
  | [] => .ok envs
  | e :: rest =>
      match (verify_state e).2.1 with
      | .error exc => .error exc
      | .ok st => verifyEntries branch rest (envAppend envs branch st)

/-- One branch step of `StateTreeRepo._scan` (statetree.py lines
164-183): a missing manifest is skipped (`except FileNotFoundError:
continue`); a `yaml.YAMLError` becomes a `StateParseError` naming the
branch (the message keeps the code's `Could no parse` typo); a decoded
document is iterated and validated. -/
def scanBranch (envs : List (String × List State)) (branch : String)
    (mf : ManifestFile) : Except Exc (List (String × List State)) :=
  match mf with
  | .missing => .ok envs
  | .undecodable msg => .error (.stateParseError
      ("Could no parse states.yaml for branch " ++ branch ++ ": " ++ msg))
  | .decoded doc =>
      match pyIter doc with
      | .error e => .error e
      | .ok entries => verifyEntries branch entries envs

/-- The branch loop of `_scan`, from a given accumulated environments
mapping. -/
def scanFrom (envs : List (String × List State)) :
    List (String × ManifestFile) → Except Exc (List (String × List State))
  | [] => .ok envs
  | (b, mf) :: rest =>
      match scanBranch envs b mf with
      | .error e => .error e
      | .ok envs2 => scanFrom envs2 rest

/-- `StateTreeRepo._scan` over the branches of the root repository (in
`self.branches` enumeration order), each paired with what its checkout
holds at `states.yaml`.  An error is raised out of `__init__`, so no
environments mapping is returned at all in that case. -/
def scan (branches : List (String × ManifestFile)) :
    Except Exc (List (String × List State)) :=
  scanFrom [] branches

/-- Inverse of `RefType.str`. -/
def RefType.fromStr : String → Option RefType
  | "branch" => some .branch
  | "commit" => some .commit
  | "tag" => some .tag
  | _ => none

/-- Modelled from the spec: the exported document format of §6 read
back — an entry value is either a bare URL or a mapping holding `url`
and exactly one reference kind; the repository itself contains no
decoder for its own output. -/
def specDecodeEntry : YVal → Option (Yaml × Option (RefType × Yaml))
  | .scalar u => some (u, none)
  | .map es =>
      match lookupA es "url", es.filter (fun p => p.1 ≠ "url") with
      | some u, [(k, n)] =>
          match RefType.fromStr k with
          | some rt => some (u, some (rt, n))
          | none => none
      | _, _ => none

/-- The last state with a given name in a list — the one whose
`as_dict` value survives the exporter's left-to-right dict merge. -/
def winner (k : String) : List State → Option State
  | [] => none
  | s :: rest =>
      match winner k rest with
      | some t => some t
      | none => if s.name = k then some s else none

/-- Oracle under which every clone succeeds. -/
def okOpen : Yaml → Except Exc Unit := fun _ => .ok ()

/-- Oracle under which every reference validation succeeds. -/
def okVal : RefType → Yaml → Except Exc Unit := fun _ _ => .ok ()

theorem pyStrLe_refl (a : String) : pyStrLe a a = true := by
  simp [pyStrLe, pyStrLt, charsLtB_irrefl]

theorem stateLe_refl (s : State) : stateLe s s := pyStrLe_refl _

theorem lookupA_append {α : Type} (d1 d2 : List (String × α)) (key : String) :
    lookupA (d1 ++ d2) key =
      match lookupA d1 key with
      | some v => some v
      | none => lookupA d2 key := by
  induction d1 with
  | nil => simp [lookupA]
  | cons p rest ih =>
    by_cases h : p.1 = key <;> simp [lookupA, h, ih]

theorem lookupA_map_replace {α : Type} (d : List (String × α)) (k key : String) (v : α) :
    lookupA (d.map (fun p => if p.1 = k then (p.1, v) else p)) key =
      if k = key then (lookupA d key).map (fun _ => v) else lookupA d key := by
  induction d with
  | nil => simp [lookupA]
  | cons p rest ih =>
    simp only [List.map_cons]
    by_cases hpk : p.1 = k
    · rw [if_pos hpk]
      by_cases hpkey : p.1 = key
      · have hk : k = key := by rw [← hpk, hpkey]
        simp [lookupA, hpkey, hk]
      · have hk : ¬ k = key := fun h => hpkey (by rw [hpk, h])
        simp [lookupA, hpkey, hk, ih]
    · rw [if_neg hpk]
      by_cases hpkey : p.1 = key
      · have hk : ¬ k = key := fun h => hpk (hpkey.trans h.symm)
        simp [lookupA, hpkey, hk]
      · simp [lookupA, hpkey, ih]

theorem contains_iff_lookupA {α : Type} (d : List (String × α)) (k : String) :
    (d.map Prod.fst).contains k = true ↔ (lookupA d k).isSome := by
  induction d with
  | nil => simp [lookupA]
  | cons p rest ih =>
    by_cases h : p.1 = k
    · simp [lookupA, h]
    · have h2 : ¬ (k == p.1) = true := by simp [Ne.symm h]
      simp only [List.map_cons, List.contains_cons, h2, Bool.false_or, lookupA, if_neg h]
      exact ih

theorem lookupA_dictInsert (d : List (String × YVal)) (k key : String) (v : YVal) :
    lookupA (dictInsert d k v) key =
      if k = key then some v else lookupA d key := by
  unfold dictInsert
  by_cases hc : (d.map Prod.fst).contains k = true
  · rw [if_pos hc, lookupA_map_replace]
    by_cases hk : k = key
    · subst hk
      have := (contains_iff_lookupA d k).mp hc
      cases h : lookupA d k with
      | none => rw [h] at this; simp at this
      | some w => simp [h]
    · simp [hk]
  · rw [if_neg hc, lookupA_append]
    by_cases hk : k = key
    · subst hk
      have : ¬ (lookupA d k).isSome := fun h => hc ((contains_iff_lookupA d k).mpr h)
      cases h : lookupA d k with
      | none => simp [lookupA]
      | some w => rw [h] at this; simp at this
    · cases h : lookupA d key with
      | none => simp [lookupA, Ne.symm hk, hk]
      | some w => simp [hk]

theorem lookupA_mergeFold (xs : List State) (d0 : List (String × YVal)) (key : String) :
    lookupA (xs.foldl (fun d s => dictInsert d s.name s.val) d0) key =
      match winner key xs with
      | some t => some t.val
      | none => lookupA d0 key := by
  induction xs generalizing d0 with
  | nil => simp [winner]
  | cons x xs ih =>
    rw [List.foldl_cons, ih]
    cases hw : winner key xs with
    | some t => simp [winner, hw]
    | none =>
      rw [lookupA_dictInsert]
      by_cases hx : x.name = key
      · simp [winner, hw, hx]
      · simp [winner, hw, hx, Ne.symm hx]

theorem winner_some_mem (k : String) (l : List State) (t : State)
    (h : winner k l = some t) : t ∈ l ∧ t.name = k := by
  induction l with
  | nil => simp [winner] at h
  | cons x rest ih =>
    rw [winner] at h
    cases hw : winner k rest with
    | some u =>
      rw [hw] at h
      have h3 : u = t := by injection h
      subst h3
      obtain ⟨h1, h2⟩ := ih hw
      exact ⟨List.mem_cons_of_mem _ h1, h2⟩
    | none =>
      rw [hw] at h
      by_cases hx : x.name = k
      · rw [if_pos hx] at h
        have h3 : x = t := by injection h
        subst h3
        exact ⟨List.mem_cons_self _ _, hx⟩
      · rw [if_neg hx] at h
        exact absurd h (by simp)

theorem winner_eq_none_iff (k : String) (l : List State) :
    winner k l = none ↔ ∀ s ∈ l, s.name ≠ k := by
  induction l with
  | nil => simp [winner]
  | cons x rest ih =>
    rw [winner]
    cases hw : winner k rest with
    | some t =>
      constructor
      · intro h; exact absurd h (by simp)
      · intro h
        obtain ⟨hm, hn⟩ := winner_some_mem k rest t hw
        exact absurd hn (h t (List.mem_cons_of_mem _ hm))
    | none =>
      have hrest := ih.mp hw
      by_cases hx : x.name = k
      · rw [if_pos hx]
        constructor
        · intro h; exact absurd h (by simp)
        · intro h; exact absurd hx (h x (List.mem_cons_self _ _))
      · rw [if_neg hx]
        constructor
        · intro _ s hs
          rcases List.mem_cons.mp hs with h1 | h1
          · rw [h1]; exact hx
          · exact hrest s h1
        · intro _; rfl

theorem winner_max_of_sorted (k : String) (l : List State) (t : State)
    (hs : List.Sorted stateLe l) (h : winner k l = some t) :
    ∀ s ∈ l, s.name = k → pyStrLe s.reprStr t.reprStr = true := by
  induction l with
  | nil => simp [winner] at h
  | cons x rest ih =>
    have hx_all := List.rel_of_sorted_cons hs
    have hrest := List.Sorted.of_cons hs
    rw [winner] at h
    intro s hs_mem hs_name
    cases hw : winner k rest with
    | some u =>
      rw [hw] at h
      have h3 : u = t := by injection h
      subst h3
      rcases List.mem_cons.mp hs_mem with h1 | h1
      · subst h1
        exact hx_all u (winner_some_mem k rest u hw).1
      · exact ih hrest hw s h1 hs_name
    | none =>
      rw [hw] at h
      by_cases hxk : x.name = k
      · rw [if_pos hxk] at h
        have h3 : x = t := by injection h
        subst h3
        rcases List.mem_cons.mp hs_mem with h1 | h1
        · subst h1; exact pyStrLe_refl _
        · exact absurd hs_name ((winner_eq_none_iff k rest).mp hw s h1)
      · rw [if_neg hxk] at h
        exact absurd h (by simp)

theorem winner_isSome_of_mem (k : String) (l : List State) (s : State)
    (hmem : s ∈ l) (hname : s.name = k) : (winner k l).isSome := by
  cases hw : winner k l with
  | some t => simp
  | none => exact absurd hname ((winner_eq_none_iff k l).mp hw s hmem)

theorem map_replace_keys {α : Type} (d : List (String × α)) (k : String) (v : α) :
    (d.map (fun p => if p.1 = k then (p.1, v) else p)).map Prod.fst = d.map Prod.fst := by
  induction d with
  | nil => rfl
  | cons p rest ih =>
    by_cases h : p.1 = k <;> simp [h, ih]

theorem dictInsert_keys_nodup (d : List (String × YVal)) (k : String) (v : YVal)
    (h : (d.map Prod.fst).Nodup) : ((dictInsert d k v).map Prod.fst).Nodup := by
  unfold dictInsert
  by_cases hc : (d.map Prod.fst).contains k = true
  · rw [if_pos hc, map_replace_keys]
    exact h
  · rw [if_neg hc, List.map_append]
    have hk : k ∉ d.map Prod.fst := by
      intro hm
      exact hc (List.elem_eq_true_of_mem hm)
    simp [List.nodup_append, h, hk]

theorem mergeFold_keys_nodup (xs : List State) (d0 : List (String × YVal))
    (h : (d0.map Prod.fst).Nodup) :
    ((xs.foldl (fun d s => dictInsert d s.name s.val) d0).map Prod.fst).Nodup := by
  induction xs generalizing d0 with
  | nil => exact h
  | cons x xs ih => exact ih _ (dictInsert_keys_nodup _ _ _ h)

theorem mergeStates_keys_nodup (l : List State) :
    ((mergeStates l).map Prod.fst).Nodup :=
  mergeFold_keys_nodup _ [] (by simp)

theorem lookupA_eq_some_iff_mem {α : Type} (d : List (String × α))
    (hn : (d.map Prod.fst).Nodup) (k : String) (v : α) :
    lookupA d k = some v ↔ (k, v) ∈ d := by
  induction d with
  | nil => simp [lookupA]
  | cons p rest ih =>
    obtain ⟨k2, v2⟩ := p
    simp only [List.map_cons, List.nodup_cons] at hn
    obtain ⟨hp, hrest⟩ := hn
    by_cases h : k2 = k
    · subst h
      simp only [lookupA, if_pos rfl]
      constructor
      · intro hv
        have hv2 : v2 = v := by injection hv
        rw [← hv2]
        exact List.mem_cons_self _ _
      · intro hm
        rcases List.mem_cons.mp hm with h1 | h1
        · have hv : v = v2 := congrArg Prod.snd h1
          rw [hv]
          simp
        · exact absurd (List.mem_map_of_mem Prod.fst h1) hp
    · simp only [lookupA, if_neg h]
      rw [ih hrest]
      constructor
      · intro hm
        exact List.mem_cons_of_mem _ hm
      · intro hm
        rcases List.mem_cons.mp hm with h1 | h1
        · exact absurd (congrArg Prod.fst h1).symm h
        · exact h1

theorem sorted_keyLt_of_nodup {α : Type} (d : List (String × α))
    (hn : (d.map Prod.fst).Nodup) (hs : List.Sorted keyLe d) :
    List.Sorted keyLt d := by
  have hne : List.Pairwise (fun p q : String × α => p.1 ≠ q.1) d :=
    List.pairwise_map.mp hn
  exact (hs.and hne).imp (fun h => pyStrLt_of_le_of_ne _ _ h.1 h.2)

theorem sortByKey_eq_of_lookup_eq (d1 d2 : List (String × YVal))
    (h1 : (d1.map Prod.fst).Nodup) (h2 : (d2.map Prod.fst).Nodup)
    (hl : ∀ k, lookupA d1 k = lookupA d2 k) :
    sortByKey d1 = sortByKey d2 := by
  classical
  have hmem : ∀ p : String × YVal, p ∈ d1 ↔ p ∈ d2 := by
    rintro ⟨k, v⟩
    rw [← lookupA_eq_some_iff_mem d1 h1 k v, ← lookupA_eq_some_iff_mem d2 h2 k v, hl k]
  have hperm : List.Perm d1 d2 := by
    apply List.perm_of_nodup_nodup_toFinset_eq (List.Nodup.of_map _ h1) (List.Nodup.of_map _ h2)
    apply Finset.ext
    intro p
    rw [List.mem_toFinset, List.mem_toFinset]
    exact hmem p
  have hsp : List.Perm (sortByKey d1) (sortByKey d2) :=
    ((List.perm_insertionSort keyLe d1).trans hperm).trans
      (List.perm_insertionSort keyLe d2).symm
  have hn1 : ((sortByKey d1).map Prod.fst).Nodup :=
    (((List.perm_insertionSort keyLe d1).map Prod.fst).nodup_iff).mpr h1
  have hn2 : ((sortByKey d2).map Prod.fst).Nodup :=
    (((List.perm_insertionSort keyLe d2).map Prod.fst).nodup_iff).mpr h2
  exact List.eq_of_perm_of_sorted hsp
    (sorted_keyLt_of_nodup _ hn1 (List.sorted_insertionSort keyLe d1))
    (sorted_keyLt_of_nodup _ hn2 (List.sorted_insertionSort keyLe d2))

theorem as_dict_ok (openR : Yaml → Except Exc Unit)
    (valR : RefType → Yaml → Except Exc Unit)
    (ho : ∀ u, openR u = .ok ()) (hv : ∀ k n, valR k n = .ok ()) (s : State) :
    (State.as_dict openR valR true s).2 = .ok (s.name, s.val) := by
  cases href : s.ref <;> simp [State.as_dict, ho, hv, href]

theorem mergeRun_ok (openR : Yaml → Except Exc Unit)
    (valR : RefType → Yaml → Except Exc Unit)
    (ho : ∀ u, openR u = .ok ()) (hv : ∀ k n, valR k n = .ok ())
    (xs : List State) (acc : List (String × YVal)) :
    (mergeRun openR valR xs acc).2 =
      .ok (xs.foldl (fun d s => dictInsert d s.name s.val) acc) := by
  induction xs generalizing acc with
  | nil => rfl
  | cons s rest ih =>
    have hr := as_dict_ok openR valR ho hv s
    simp only [mergeRun, hr, List.foldl_cons]
    exact ih _

theorem exportEnvRun_ok (openR : Yaml → Except Exc Unit)
    (valR : RefType → Yaml → Except Exc Unit)
    (ho : ∀ u, openR u = .ok ()) (hv : ∀ k n, valR k n = .ok ())
    (l : List State) :
    (exportEnvRun openR valR l).2 = .ok (exportEnvDoc l) := by
  simp only [exportEnvRun, exportEnvDoc, mergeStates,
    mergeRun_ok openR valR ho hv, Except.map]

theorem scanFrom_append (envs : List (String × List State))
    (l1 l2 : List (String × ManifestFile)) :
    scanFrom envs (l1 ++ l2) =
      match scanFrom envs l1 with
      | .ok e => scanFrom e l2
      | .error er => .error er := by
  induction l1 generalizing envs with
  | nil => rfl
  | cons p rest ih =>
    obtain ⟨b, mf⟩ := p
    rw [List.cons_append, scanFrom, scanFrom]
    cases scanBranch envs b mf with
    | error e => rfl
    | ok envs2 => exact ih envs2

theorem lookupA_mergeStates (l : List State) (key : String) :
    lookupA (mergeStates l) key =
      (winner key (List.insertionSort stateLe l)).map State.val := by
  rw [mergeStates, lookupA_mergeFold]
  cases winner key (List.insertionSort stateLe l) <;> simp [lookupA]

theorem lookupA_map_val {α β : Type} (d : List (String × α)) (g : α → β) (k : String) :
    lookupA (d.map (fun p => (p.1, g p.2))) k = (lookupA d k).map g := by
  induction d with
  | nil => simp [lookupA]
  | cons p rest ih =>
    by_cases h : p.1 = k <;> simp [lookupA, h, ih]

theorem lookupA_perm {α : Type} (d1 d2 : List (String × α))
    (hperm : List.Perm d1 d2) (hn : (d1.map Prod.fst).Nodup) (k : String) :
    lookupA d1 k = lookupA d2 k := by
  have hn2 : (d2.map Prod.fst).Nodup := ((hperm.map Prod.fst).nodup_iff).mp hn
  cases h : lookupA d1 k with
  | none =>
    cases h2 : lookupA d2 k with
    | none => rfl
    | some w =>
      have hm := (lookupA_eq_some_iff_mem d2 hn2 k w).mp h2
      have hm1 := hperm.mem_iff.mpr hm
      have := (lookupA_eq_some_iff_mem d1 hn k w).mpr hm1
      rw [h] at this
      exact absurd this (by simp)
  | some w =>
    have hm := (lookupA_eq_some_iff_mem d1 hn k w).mp h
    exact ((lookupA_eq_some_iff_mem d2 hn2 k w).mpr (hperm.mem_iff.mp hm)).symm

theorem lookupA_yamlSafeDump (d : List (String × YVal))
    (hn : (d.map Prod.fst).Nodup) (k : String) :
    lookupA (yamlSafeDump d) k = (lookupA d k).map dumpVal := by
  rw [yamlSafeDump, lookupA_map_val]
  rw [lookupA_perm (sortByKey d) d (List.perm_insertionSort keyLe d)
    (((List.perm_insertionSort keyLe d).map Prod.fst).nodup_iff.mpr hn) k]

theorem map_fst_dump (d : List (String × YVal)) :
    ((d.map (fun p => (p.1, dumpVal p.2))).map Prod.fst) = d.map Prod.fst := by
  induction d with
  | nil => rfl
  | cons p rest ih => simp [ih]

theorem lookupA_exportEnvDoc (l : List State) (k : String) (s : State)
    (hmem : s ∈ l) (hname : s.name = k)
    (hmax : ∀ t ∈ l, t.name = k → pyStrLt t.reprStr s.reprStr = true ∨ t.val = s.val) :
    lookupA (exportEnvDoc l) k = some (dumpVal s.val) := by
  have hsort : List.Sorted stateLe (List.insertionSort stateLe l) :=
    List.sorted_insertionSort stateLe l
  have hmem_s : s ∈ List.insertionSort stateLe l := (List.mem_insertionSort stateLe).mpr hmem
  have hsome := winner_isSome_of_mem k _ s hmem_s hname
  obtain ⟨t, hw⟩ := Option.isSome_iff_exists.mp hsome
  obtain ⟨htmem, htname⟩ := winner_some_mem k _ t hw
  have htmem_l : t ∈ l := (List.mem_insertionSort stateLe).mp htmem
  have hle : pyStrLe s.reprStr t.reprStr = true :=
    winner_max_of_sorted k _ t hsort hw s hmem_s hname
  have hval : t.val = s.val := by
    rcases hmax t htmem_l htname with hlt | hval
    · exfalso
      have := pyStrLe_of_lt _ _ hlt
      have heq := pyStrLe_antisymm _ _ hle (pyStrLe_of_lt _ _ hlt)
      rw [heq] at hlt
      rw [pyStrLt, charsLtB_irrefl] at hlt
      exact Bool.false_ne_true hlt
    · exact hval
  rw [exportEnvDoc, lookupA_yamlSafeDump _ (mergeStates_keys_nodup l) k,
    lookupA_mergeStates, hw]
  simp [hval]

theorem exportEnvDoc_perm (l1 l2 : List State) (hperm : List.Perm l1 l2)
    (hcoh : ∀ s ∈ l1, ∀ t ∈ l1, s.name = t.name → s.reprStr = t.reprStr →
      s.val = t.val) :
    exportEnvDoc l1 = exportEnvDoc l2 := by
  have hmemt : ∀ s : State, s ∈ List.insertionSort stateLe l1 ↔
      s ∈ List.insertionSort stateLe l2 := by
    intro s
    rw [List.mem_insertionSort, List.mem_insertionSort]
    exact hperm.mem_iff
  have hl : ∀ k, lookupA (mergeStates l1) k = lookupA (mergeStates l2) k := by
    intro k
    rw [lookupA_mergeStates, lookupA_mergeStates]
    cases hw1 : winner k (List.insertionSort stateLe l1) with
    | none =>
      have hnone := (winner_eq_none_iff k _).mp hw1
      have h2 : winner k (List.insertionSort stateLe l2) = none := by
        rw [winner_eq_none_iff]
        intro s hs
        exact hnone s ((hmemt s).mpr hs)
      rw [h2]
    | some t1 =>
      obtain ⟨ht1mem, ht1name⟩ := winner_some_mem k _ t1 hw1
      have hsome2 : (winner k (List.insertionSort stateLe l2)).isSome :=
        winner_isSome_of_mem k _ t1 ((hmemt t1).mp ht1mem) ht1name
      obtain ⟨t2, hw2⟩ := Option.isSome_iff_exists.mp hsome2
      obtain ⟨ht2mem, ht2name⟩ := winner_some_mem k _ t2 hw2
      have hle12 : pyStrLe t1.reprStr t2.reprStr = true :=
        winner_max_of_sorted k _ t2 (List.sorted_insertionSort stateLe l2) hw2
          t1 ((hmemt t1).mp ht1mem) ht1name
      have hle21 : pyStrLe t2.reprStr t1.reprStr = true :=
        winner_max_of_sorted k _ t1 (List.sorted_insertionSort stateLe l1) hw1
          t2 ((hmemt t2).mpr ht2mem) ht2name
      have hrepr : t1.reprStr = t2.reprStr := pyStrLe_antisymm _ _ hle12 hle21
      have ht1l1 : t1 ∈ l1 := (List.mem_insertionSort stateLe).mp ht1mem
      have ht2l1 : t2 ∈ l1 :=
        hperm.mem_iff.mpr ((List.mem_insertionSort stateLe).mp ht2mem)
      have hval : t1.val = t2.val :=
        hcoh t1 ht1l1 t2 ht2l1 (ht1name.trans ht2name.symm) hrepr
      rw [hw2]
      simp [hval]
  have hkey := sortByKey_eq_of_lookup_eq (mergeStates l1) (mergeStates l2)
    (mergeStates_keys_nodup l1) (mergeStates_keys_nodup l2) hl
  rw [exportEnvDoc, exportEnvDoc, yamlSafeDump, yamlSafeDump, hkey]

/-- The Python exception class of a raised (or absent) error. -/
def errClassOf {α : Type} : Except Exc α → Option String
  | .ok _ => none
  | .error e => some e.className

/-- Claim C1, counterexample: both the failed-lookup path and the
command-failure path raise the single class `GitError` — there is no
`ReferenceNotFoundError` type distinct from the transport error; and
`verifyCommit` on a nonexistent hash fails inside the `cat-file`
command itself, so even its error is the command-failure `GitError`. -/
theorem C1_counterexample :
    errClassOf (validate_branch (.ok "") "main" "https://example/repo.git")
        = some "GitError"
    ∧ errClassOf (gitRun (.error (128, "fatal: repository not found"))
        ["clone", "--depth=1"]) = some "GitError"
    ∧ errClassOf (validate_branch (.ok "") "main" "https://example/repo.git")
        = errClassOf (gitRun (.error (128, "fatal: repository not found"))
            ["clone", "--depth=1"])
    ∧ errClassOf (validate_commit
        (gitRun (.error (128, "fatal: Not a valid object name deadbeef"))
          ["cat-file", "-t", "deadbeef"])
        "deadbeef" "https://example/repo.git") = some "GitError" :=
  ⟨rfl, rfl, rfl, rfl⟩

/-- Claim C1, amended: when a lookup command succeeds but finds no ref,
`validate_branch` and `validate_tag` raise a `GitError` whose message
carries the kind, name and URL; `validate_commit` raises its
not-found-style `GitError` only when `cat-file` succeeds with a
non-`commit` type (a nonexistent hash already fails as a command); and
in every case the exception class is `GitError` — the same class raised
when the command itself exits non-zero — not a distinct error type. -/
theorem C1_amended :
    (∀ b u, validate_branch (.ok "") b u
        = .error (.gitError ("Branch " ++ b ++ " not found for repository " ++ u)))
    ∧ (∀ t u, validate_tag (.ok "") t u
        = .error (.gitError ("Tag " ++ t ++ " not found for repository " ++ u)))
    ∧ (∀ c u, validate_commit (.ok "tag\n") c u
        = .error (.gitError ("Commit " ++ c ++ " not found for repository " ++ u)))
    ∧ (∀ e b u, validate_branch (.error e) b u = .error e)
    ∧ (∀ e t u, validate_tag (.error e) t u = .error e)
    ∧ (∀ e c u, validate_commit (.error e) c u = .error e)
    ∧ (∀ m, (Exc.gitError m).className = "GitError") :=
  ⟨fun _ _ => rfl, fun _ _ => rfl, fun _ _ => rfl,
    fun _ _ _ => rfl, fun _ _ _ => rfl, fun _ _ _ => rfl, fun _ => rfl⟩

/-- A concrete state with no reference. -/
def stateC2 : State := ⟨"api", .ystr "https://example/api.git", none⟩

/-- Claim C2, counterexample: serializing a reference-free state with
verification enabled opens a working copy of its source URL — the
clone happens before the reference dispatch, so repository access does
occur. -/
theorem C2_counterexample :
    Eff.openRepo (.ystr "https://example/api.git")
      ∈ (State.as_dict okOpen okVal true stateC2).1 := by
  simp [State.as_dict, okOpen, stateC2, State.val]

/-- Claim C2, amended: a state whose reference is `none` undergoes no
reference validation (its effect trace holds no `validate` effect), but
with verification enabled a working copy of its source URL is still
opened — only the validation itself is skipped, via the caught
`AttributeError`. -/
theorem C2_amended (openR : Yaml → Except Exc Unit)
    (valR : RefType → Yaml → Except Exc Unit) (s : State) (h : s.ref = none) :
    ((State.as_dict openR valR true s).1.filter Eff.isValidate = [])
    ∧ Eff.openRepo s.url ∈ (State.as_dict openR valR true s).1 := by
  cases ho : openR s.url <;> simp [State.as_dict, h, ho, Eff.isValidate]

/-- Claim C2, witness: the amended statement at a concrete
reference-free state under all-succeeding oracles. -/
theorem C2_witness :
    ((State.as_dict okOpen okVal true stateC2).1.filter Eff.isValidate = [])
    ∧ Eff.openRepo stateC2.url ∈ (State.as_dict okOpen okVal true stateC2).1 :=
  C2_amended okOpen okVal stateC2 rfl

/-- A concrete well-formed manifest entry. -/
def entryC3 : Yaml :=
  .ymap [("web", .ymap [("url", .ystr "https://x/y.git"), ("tag", .ystr "v2")])]

/-- Claim C3, counterexample: validating a well-formed entry prints the
entry (stdout I/O) and mutates it — `popitem()` leaves the entry
mapping empty, so the input is not left unchanged. -/
theorem C3_counterexample :
    (verify_state entryC3).1 = [Eff.print entryC3]
    ∧ (verify_state entryC3).2.2 ≠ entryC3 := by
  refine ⟨rfl, ?_⟩
  intro h
  rw [show (verify_state entryC3).2.2 = .ymap [] from rfl] at h
  simp [entryC3] at h

/-- Claim C3, amended: the validator performs no repository or
version-control access — its only effect is printing the entry — but it
is not side-effect-free: it prints each entry to stdout, and it
consumes its input, a single-key entry mapping being left empty by
`popitem()` (the nested options mapping likewise loses its `url` key to
`pop`). -/
theorem C3_amended (e : Yaml) (k : String) (v : Yaml) :
    (verify_state e).1 = [Eff.print e]
    ∧ (verify_state (.ymap [(k, v)])).2.2 = .ymap [] :=
  ⟨rfl, rfl⟩

/-- Two validated states sharing a name, listed in manifest order with
the canonically-greater one first. -/
def statesC4 : List State := [⟨"a", .ystr "z", none⟩, ⟨"a", .ystr "b", none⟩]

/-- Claim C4, counterexample: with manifest order `a → "z"` then
`a → "b"`, the exporter sorts by canonical rendering before merging, so
the document maps `a` to `"z"` — not to the data of the entry latest in
manifest order (`"b"`).  Both entries are validator-produced. -/
theorem C4_counterexample :
    (verify_state (.ymap [("a", .ystr "z")])).2.1 = .ok ⟨"a", .ystr "z", none⟩
    ∧ (verify_state (.ymap [("a", .ystr "b")])).2.1 = .ok ⟨"a", .ystr "b", none⟩
    ∧ exportEnvDoc statesC4 = [("a", .scalar (.ystr "z"))]
    ∧ exportEnvDoc statesC4 ≠ [("a", .scalar (.ystr "b"))] := by
  refine ⟨rfl, rfl, rfl, ?_⟩
  intro h
  rw [show exportEnvDoc statesC4 = [("a", .scalar (.ystr "z"))] from rfl] at h
  simp at h

/-- Claim C4, amended: among entries sharing a state name, the exported
document carries the value of the entry greatest in canonical-rendering
order (the states are sorted by rendering before the last-write-wins
merge); manifest order decides only between entries whose rendering and
serialized value coincide. -/
theorem C4_amended (l : List State) (k : String) (s : State)
    (hmem : s ∈ l) (hname : s.name = k)
    (hmax : ∀ t ∈ l, t.name = k →
      pyStrLt t.reprStr s.reprStr = true ∨ t.val = s.val) :
    lookupA (exportEnvDoc l) k = some (dumpVal s.val) :=
  lookupA_exportEnvDoc l k s hmem hname hmax

/-- Claim C4, witness: the amended statement at the concrete duplicate
pair, where the canonically-greatest entry `a → "z"` wins. -/
theorem C4_witness :
    lookupA (exportEnvDoc statesC4) "a"
      = some (dumpVal (State.val ⟨"a", .ystr "z", none⟩)) :=
  C4_amended statesC4 "a" ⟨"a", .ystr "z", none⟩
    (List.mem_cons_self _ _) rfl
    (by
      intro t ht hn
      rcases List.mem_cons.mp ht with h1 | h1
      · right; rw [h1]
      · rw [List.mem_singleton.mp h1]
        left; rfl)

/-- A manifest entry whose reference name embeds the rendering
delimiters. -/
def entryC5a : Yaml :=
  .ymap [("web", .ymap [("url", .ystr "x"), ("branch", .ystr "y) [Tag: z")])]

/-- A second manifest entry with the same canonical rendering as
`entryC5a` but a different serialized value. -/
def entryC5b : Yaml :=
  .ymap [("web", .ymap [("url", .ystr "x) [Branch: y"), ("tag", .ystr "z")])]

/-- The validated state of `entryC5a`. -/
def stateC5a : State := ⟨"web", .ystr "x", some ⟨.branch, .ystr "y) [Tag: z"⟩⟩

/-- The validated state of `entryC5b`. -/
def stateC5b : State := ⟨"web", .ystr "x) [Branch: y", some ⟨.tag, .ystr "z"⟩⟩

/-- Claim C5, counterexample: the canonical rendering does not escape
its delimiters, so the two distinct validator-produced states above
render identically (`web (x) [Branch: y) [Tag: z]`), tie in the sort,
and the stable sort preserves input order — swapping them changes which
value survives the merge, so permuting the validated states changes the
exported document. -/
theorem C5_counterexample :
    (verify_state entryC5a).2.1 = .ok stateC5a
    ∧ (verify_state entryC5b).2.1 = .ok stateC5b
    ∧ stateC5a.reprStr = stateC5b.reprStr
    ∧ List.Perm [stateC5a, stateC5b] [stateC5b, stateC5a]
    ∧ exportEnvDoc [stateC5a, stateC5b] ≠ exportEnvDoc [stateC5b, stateC5a] := by
  refine ⟨rfl, rfl, rfl, List.Perm.swap _ _ _, ?_⟩
  intro h
  rw [show exportEnvDoc [stateC5a, stateC5b]
        = [("web", .map [("tag", .ystr "z"), ("url", .ystr "x) [Branch: y")])] from rfl,
      show exportEnvDoc [stateC5b, stateC5a]
        = [("web", .map [("branch", .ystr "y) [Tag: z"), ("url", .ystr "x")])] from rfl] at h
  simp at h

/-- Claim C5, amended: permuting the validated states of an environment
leaves the exported document unchanged provided any two states sharing
both their name and their canonical rendering serialize to the same
entry value — the proviso the counterexample's delimiter-injection
collision violates; for renderings that identify the state (the typical
case) the export is order-independent. -/
theorem C5_amended (l1 l2 : List State) (hperm : List.Perm l1 l2)
    (hcoh : ∀ s ∈ l1, ∀ t ∈ l1, s.name = t.name → s.reprStr = t.reprStr →
      s.val = t.val) :
    exportEnvDoc l1 = exportEnvDoc l2 :=
  exportEnvDoc_perm l1 l2 hperm hcoh

/-- Two states with distinct names, in one order. -/
def statesC5w1 : List State :=
  [⟨"db", .ystr "https://example/db.git", some ⟨.tag, .ystr "v1.0"⟩⟩,
    ⟨"api", .ystr "https://example/api.git", none⟩]

/-- The same two states, swapped. -/
def statesC5w2 : List State :=
  [⟨"api", .ystr "https://example/api.git", none⟩,
    ⟨"db", .ystr "https://example/db.git", some ⟨.tag, .ystr "v1.0"⟩⟩]

/-- Claim C5, witness: the amended statement at a concrete two-state
environment and its swap. -/
theorem C5_witness : exportEnvDoc statesC5w1 = exportEnvDoc statesC5w2 :=
  C5_amended statesC5w1 statesC5w2 (List.Perm.swap _ _ _)
    (by
      intro s hs t ht hname hrepr
      simp only [statesC5w1, List.mem_cons, List.not_mem_nil, or_false] at hs ht
      rcases hs with rfl | rfl <;> rcases ht with rfl | rfl
      · rfl
      · exact absurd (hname : "db" = "api") (by simp)
      · exact absurd (hname : "api" = "db") (by simp)
      · rfl)

/-- Two distinct-name states whose round trip the C6 witness checks. -/
def statesC6 : List State :=
  [⟨"db", .ystr "https://example/db.git", some ⟨.tag, .ystr "v1.0"⟩⟩,
    ⟨"api", .ystr "https://example/api.git", none⟩]

/-- Claim C6: round-trip.  For an environment of distinct-name states,
the export succeeds under all-succeeding repository oracles, produces
the pure document, and reading that document back at a state's name
(per the spec's document format) recovers exactly the state's
`(sourceURL, referenceKind, referenceName)` — serialization loses
nothing beyond key ordering; duplicate names are excluded, matching the
claim's last-write-wins caveat. -/
theorem C6_roundtrip (openR : Yaml → Except Exc Unit)
    (valR : RefType → Yaml → Except Exc Unit)
    (ho : ∀ u, openR u = .ok ()) (hv : ∀ k n, valR k n = .ok ())
    (l : List State) (hnodup : (l.map State.name).Nodup)
    (s : State) (hs : s ∈ l) :
    (exportEnvRun openR valR l).2 = .ok (exportEnvDoc l)
    ∧ (lookupA (exportEnvDoc l) s.name).bind specDecodeEntry
        = some (s.url, s.ref.map (fun r => (r.reftype, r.name))) := by
  refine ⟨exportEnvRun_ok openR valR ho hv l, ?_⟩
  have hmax : ∀ t ∈ l, t.name = s.name →
      pyStrLt t.reprStr s.reprStr = true ∨ t.val = s.val := by
    intro t ht hn
    have heq : t = s := List.inj_on_of_nodup_map hnodup ht hs hn
    right
    rw [heq]
  rw [lookupA_exportEnvDoc l s.name s hs rfl hmax]
  obtain ⟨nm, u, ref⟩ := s
  cases ref with
  | none => rfl
  | some r =>
    obtain ⟨rt, rn⟩ := r
    cases rt <;> rfl

/-- Claim C6, witness: the round trip at a concrete two-state
environment, recovering the `db` state's URL and tag. -/
theorem C6_witness :
    (exportEnvRun okOpen okVal statesC6).2 = .ok (exportEnvDoc statesC6)
    ∧ (lookupA (exportEnvDoc statesC6) "db").bind specDecodeEntry
        = some (.ystr "https://example/db.git", some (.tag, .ystr "v1.0")) :=
  C6_roundtrip okOpen okVal (fun _ => rfl) (fun _ _ => rfl) statesC6
    (by simp [statesC6])
    ⟨"db", .ystr "https://example/db.git", some ⟨.tag, .ystr "v1.0"⟩⟩
    (List.mem_cons_self _ _)

/-- Claim C7: a branch with no manifest contributes nothing and the
scan continues (deleting it from the branch list leaves the scan
unchanged), while a branch whose manifest fails to decode turns the
whole scan into a `StateParseError` naming that branch — an error, so
no environments mapping is returned at all (`__init__` raises). -/
theorem C7_scan :
    (∀ pre post b, scan (pre ++ (b, ManifestFile.missing) :: post)
        = scan (pre ++ post))
    ∧ (∀ pre b msg post envs, scan pre = .ok envs →
        scan (pre ++ (b, ManifestFile.undecodable msg) :: post)
          = .error (.stateParseError
              ("Could no parse states.yaml for branch " ++ b ++ ": " ++ msg))) := by
  constructor
  · intro pre post b
    rw [scan, scan, scanFrom_append, scanFrom_append]
    cases scanFrom [] pre with
    | error e => rfl
    | ok envs => rfl
  · intro pre b msg post envs h
    rw [scan] at h
    rw [scan, scanFrom_append, h]
    rfl

/-- Claim C7, witness: a successful one-branch scan followed by an
undecodable manifest on branch `broken` aborts with the named error. -/
theorem C7_witness :
    scan ([("base", ManifestFile.decoded (.ylist []))]
        ++ ("broken", ManifestFile.undecodable "while parsing a block node") :: [])
      = .error (.stateParseError
          ("Could no parse states.yaml for branch " ++ "broken" ++ ": "
            ++ "while parsing a block node")) :=
  C7_scan.2 [("base", ManifestFile.decoded (.ylist []))] "broken"
    "while parsing a block node" [] [] rfl

/-- Claim C8, counterexample: a decoded entry that is a two-element
list — not a mapping, hence without exactly one top-level key — is
rejected with `AttributeError` (from `state.keys()`), not with the
schema error class `StateParseError`. -/
theorem C8_counterexample :
    (verify_state (.ylist [.ystr "a", .ystr "b"])).2.1
        = .error (.attributeError "\x27list\x27 object has no attribute \x27keys\x27")
    ∧ (Exc.attributeError "\x27list\x27 object has no attribute \x27keys\x27").className
        ≠ (Exc.stateParseError "x").className := by
  refine ⟨rfl, ?_⟩
  simp [Exc.className]

/-- Claim C8, amended: every decoded entry that IS a mapping and does
not have exactly one key is rejected with the schema error
(`StateParseError` joining the keys); entries of other shapes escape
with dynamic `AttributeError`/`TypeError` instead. -/
theorem C8_amended (es : List (String × Yaml)) (h : es.length ≠ 1) :
    (verify_state (.ymap es)).2.1 = .error (.stateParseError
      ("State should have options grouped under a single key, not "
        ++ String.intercalate "," (es.map Prod.fst))) := by
  cases es with
  | nil => rfl
  | cons e1 rest =>
    cases rest with
    | nil => exact absurd rfl h
    | cons e2 rest2 => rfl

/-- Claim C8, witness: the amended statement at a concrete two-key
mapping entry. -/
theorem C8_witness :
    (verify_state (.ymap [("a", .ystr "u"), ("b", .ystr "v")])).2.1
      = .error (.stateParseError
        ("State should have options grouped under a single key, not "
          ++ String.intercalate ","
            (([("a", Yaml.ystr "u"), ("b", Yaml.ystr "v")]).map Prod.fst))) :=
  C8_amended [("a", .ystr "u"), ("b", .ystr "v")] (by decide)

/-- An environment whose exporter insertion order differs from
alphabetical key order: the rendering appends a space (code point 32),
so the name `a<US>` (ending in code point 31) renders before `a`
although it sorts after it alphabetically. -/
def statesC9 : List State := [⟨"a\x1f", .ystr "u", none⟩, ⟨"a", .ystr "v", none⟩]

/-- Claim C9, counterexample: the exporter inserts in
canonical-rendering order `a\x1f, a`, but the serializer re-sorts the
top-level keys alphabetically to `a, a\x1f` — the emitted key order is
not the exporter's insertion order. -/
theorem C9_counterexample :
    (mergeStates statesC9).map Prod.fst = ["a\x1f", "a"]
    ∧ (exportEnvDoc statesC9).map Prod.fst = ["a", "a\x1f"]
    ∧ (exportEnvDoc statesC9).map Prod.fst ≠ (mergeStates statesC9).map Prod.fst := by
  refine ⟨rfl, rfl, ?_⟩
  intro h
  rw [show (exportEnvDoc statesC9).map Prod.fst = ["a", "a\x1f"] from rfl,
    show (mergeStates statesC9).map Prod.fst = ["a\x1f", "a"] from rfl] at h
  simp at h

/-- Claim C9, amended: the serializer emits the document's top-level
keys in alphabetical (code-point) order for every environment — PyYAML's
`sort_keys` default re-sorts them — rather than in the exporter's
insertion order; the two coincide only when rendering order and name
order agree. -/
theorem C9_amended (l : List State) :
    List.Pairwise (fun a b : String => pyStrLe a b = true)
      ((exportEnvDoc l).map Prod.fst) := by
  rw [exportEnvDoc, yamlSafeDump, map_fst_dump]
  exact List.Pairwise.map Prod.fst (fun a b h => h)
    (List.sorted_insertionSort keyLe (mergeStates l))

/-- Claim C10: requesting an environment name the scan never populated
does not fail — the defaultdict lookup yields the empty state list and
the export returns the serialization of the empty mapping (the empty
document; `safe_dump({})` prints as an empty flow mapping). -/
theorem C10_unknown_env (openR : Yaml → Except Exc Unit)
    (valR : RefType → Yaml → Except Exc Unit)
    (ho : ∀ u, openR u = .ok ()) (hv : ∀ k n, valR k n = .ok ())
    (envs : List (String × List State)) (e : String)
    (h : lookupA envs e = none) :
    (yamlRun openR valR envs e).2 = .ok [] := by
  rw [yamlRun, h]
  exact exportEnvRun_ok openR valR ho hv []

/-- Claim C10, witness: exporting the never-scanned environment name
`missing` yields the empty document. -/
theorem C10_witness :
    (yamlRun okOpen okVal
        [("base", [⟨"api", .ystr "https://example/api.git", none⟩])] "missing").2
      = .ok [] :=
  C10_unknown_env okOpen okVal (fun _ => rfl) (fun _ _ => rfl)
    [("base", [⟨"api", .ystr "https://example/api.git", none⟩])] "missing" rfl

end Nacli
